import Mathlib

/-!
Verification of the single-server finite-buffer queueing state machine
(`systemstate.py`) and the statistics counter hierarchy (`counter.py`) of a
discrete-event simulator.  The state machine and the counters are embedded
shallowly: mutating Python methods become functions from the state to the new
state (paired with the returned value where the method returns one), Python
floats become rationals, and a Python numeric computation that may yield
numpy's silent NaN or raise an exception returns a `PyVal`.
-/

namespace DES

/-- Modelled from the spec: `Packet` (`packet.py` is not among the sources).
A packet carries an inter-arrival/service duration, a started-service marker
and a completed flag; the core calls `start_service`/`complete_service` and
reads `completed` before finalizing. -/
structure Packet where
  iat : Option ℚ
  in_service : Bool
  completed : Bool
deriving DecidableEq

/-- `Packet(sim, iat)`: a freshly constructed packet, not yet in service. -/
def Packet.new (iat : Option ℚ) : Packet :=
  { iat := iat, in_service := false, completed := false }

/-- Modelled from the spec: `Packet.start_service` sets the started-service
marker. -/
def Packet.start_service (p : Packet) : Packet :=
  { p with in_service := true }

/-- Modelled from the spec: `Packet.complete_service` sets the completed
flag. -/
def Packet.complete_service (p : Packet) : Packet :=
  { p with completed := true }

/-- Modelled from the spec: `FiniteQueue` (`finitequeue.py` is not among the
sources): a bounded FIFO whose `add(unit)` returns false iff the queue is
full (capacity `K`), whose `remove()` returns the head unit or none when
empty, and whose length is the current occupancy. -/
structure FiniteQueue where
  capacity : ℕ
  items : List Packet
deriving DecidableEq

/-- Modelled from the spec: `FiniteQueue.add` — accept the unit iff there is
spare capacity. -/
def FiniteQueue.add (q : FiniteQueue) (p : Packet) : FiniteQueue × Bool :=
  if q.items.length < q.capacity then ({ q with items := q.items ++ [p] }, true)
  else (q, false)

/-- Modelled from the spec: `FiniteQueue.remove` — pop the head unit, none
when the queue is empty. -/
def FiniteQueue.remove (q : FiniteQueue) : FiniteQueue × Option Packet :=
  match q.items with
  | [] => (q, none)
  | p :: rest => ({ q with items := rest }, some p)

/-- Modelled from the spec: `FiniteQueue.get_queue_length` — the occupancy. -/
def FiniteQueue.get_queue_length (q : FiniteQueue) : ℕ :=
  q.items.length

/-- The parameters the core reads from the simulation object: the maximum
buffer space (capacity `K`, called `S` in `sim_param`) and the inter-arrival
time `IAT` passed to each constructed packet. -/
structure SimParam where
  S : ℕ
  IAT : ℚ
deriving DecidableEq

/-- `SystemState` (`systemstate.py` lines 5-116): server-busy flag, the
bounded buffer, the served packet and the last-arrival bookkeeping. Python's
`served_packet` holds a `Packet` object throughout; it can only become `None`
through the dead branch of `start_service`, hence the `Option`. -/
structure SystemState where
  sim : SimParam
  server_busy : Bool
  buffer : FiniteQueue
  served_packet : Option Packet
  last_arrival : ℚ
deriving DecidableEq

/-- `SystemState.__init__` (lines 21-36): idle server, empty buffer of the
configured capacity, a sentinel packet in the server slot. -/
def SystemState.new (param : SimParam) : SystemState :=
  { sim := param
    server_busy := false
    buffer := { capacity := param.S, items := [] }
    served_packet := some (Packet.new none)
    last_arrival := 0 }

/-- `add_packet_to_server` (lines 38-58): construct a packet; if the server is
idle, make it the served packet, start its service and set busy, returning
true; otherwise return false with no state change. -/
def SystemState.add_packet_to_server (s : SystemState) : SystemState × Bool :=
  let p := Packet.new (some s.sim.IAT)
  if !s.server_busy then
    ({ s with served_packet := some p.start_service, server_busy := true }, true)
  else (s, false)

/-- `add_packet_to_queue` (lines 60-74): construct a packet and return the
buffer's accept/reject result. -/
def SystemState.add_packet_to_queue (s : SystemState) : SystemState × Bool :=
  let p := Packet.new (some s.sim.IAT)
  let r := s.buffer.add p
  ({ s with buffer := r.1 }, r.2)

/-- `complete_service` (lines 77-86): mark the served packet completed unless
it already is, clear the busy flag, and report the packet to the (external)
counter collection.  Python dereferences `self.served_packet`, which is never
`None` in a reachable state; the `none` branch mirrors the only state effect
that precedes the dereference. -/
def SystemState.complete_service (s : SystemState) : SystemState :=
  match s.served_packet with
  | some p =>
    let p' := if !p.completed then p.complete_service else p
    { s with served_packet := some p', server_busy := false }
  | none => { s with server_busy := false }

/-- `start_service` (lines 88-109): if the buffer is non-empty, remove the
head; if a packet came out, make it the served packet, set busy and start its
service; either way return true.  On an empty buffer return false with no
change.  (Python assigns `self.served_packet = self.buffer.remove()` before
testing it against `None`, so the dead branch leaves `served_packet = None`
with the busy flag untouched and still returns true.) -/
def SystemState.start_service (s : SystemState) : SystemState × Bool :=
  if 0 < s.buffer.get_queue_length then
    let r := s.buffer.remove
    match r.2 with
    | some p =>
      ({ s with buffer := r.1, served_packet := some p.start_service,
                server_busy := true }, true)
    | none => ({ s with buffer := r.1, served_packet := none }, true)
  else (s, false)

/-- `get_queue_length` (lines 111-115): pure query of the buffer occupancy. -/
def SystemState.get_queue_length (s : SystemState) : ℕ :=
  s.buffer.get_queue_length

/-- The five operations the external event driver may invoke on the state. -/
inductive Op where
  | addToServer
  | addToQueue
  | startService
  | completeService
  | queueLength
deriving DecidableEq

/-- One driver call: the state after the operation (returned values are
dropped; `get_queue_length` is a pure query). -/
def SystemState.step (s : SystemState) : Op → SystemState
  | Op.addToServer => s.add_packet_to_server.1
  | Op.addToQueue => s.add_packet_to_queue.1
  | Op.startService => s.start_service.1
  | Op.completeService => s.complete_service
  | Op.queueLength => s

/-- A whole driver history, applied in order. -/
def SystemState.run (s : SystemState) (ops : List Op) : SystemState :=
  ops.foldl SystemState.step s

/-- A live, in-service unit occupies the server slot: the packet exists, its
started-service marker is set and it has not completed. -/
def liveInService : Option Packet → Bool
  | some p => p.in_service && !p.completed
  | none => false

/-- The inductive invariant of the state machine: the busy flag tracks a live
in-service served unit, the buffer respects its capacity, the capacity is the
configured `K`, and every buffered packet is uncompleted. -/
def SystemState.Inv (s : SystemState) : Prop :=
  s.server_busy = liveInService s.served_packet ∧
  s.buffer.items.length ≤ s.buffer.capacity ∧
  s.buffer.capacity = s.sim.S ∧
  ∀ p ∈ s.buffer.items, p.completed = false

theorem add_packet_to_server_idle (s : SystemState)
    (h : s.server_busy = false) :
    s.add_packet_to_server =
      ({ s with served_packet := some (Packet.new (some s.sim.IAT)).start_service,
                server_busy := true }, true) := by
  simp [SystemState.add_packet_to_server, h]

theorem add_packet_to_server_busy (s : SystemState)
    (h : s.server_busy = true) :
    s.add_packet_to_server = (s, false) := by
  simp [SystemState.add_packet_to_server, h]

theorem add_packet_to_queue_room (s : SystemState)
    (h : s.buffer.items.length < s.buffer.capacity) :
    s.add_packet_to_queue =
      ({ s with buffer := { s.buffer with
          items := s.buffer.items ++ [Packet.new (some s.sim.IAT)] } }, true) := by
  simp [SystemState.add_packet_to_queue, FiniteQueue.add, h]

theorem add_packet_to_queue_full (s : SystemState)
    (h : ¬ s.buffer.items.length < s.buffer.capacity) :
    s.add_packet_to_queue = ({ s with buffer := s.buffer }, false) := by
  simp [SystemState.add_packet_to_queue, FiniteQueue.add, h]

theorem complete_service_some (s : SystemState) (p : Packet)
    (h : s.served_packet = some p) :
    s.complete_service =
      { s with served_packet := some (if !p.completed then p.complete_service else p),
               server_busy := false } := by
  simp [SystemState.complete_service, h]

theorem start_service_cons (s : SystemState) (p : Packet) (rest : List Packet)
    (h : s.buffer.items = p :: rest) :
    s.start_service =
      ({ s with buffer := { s.buffer with items := rest },
                served_packet := some p.start_service,
                server_busy := true }, true) := by
  simp [SystemState.start_service, FiniteQueue.get_queue_length,
    FiniteQueue.remove, h]

theorem start_service_nil (s : SystemState) (h : s.buffer.items = []) :
    s.start_service = (s, false) := by
  simp [SystemState.start_service, FiniteQueue.get_queue_length, h]

theorem inv_new (param : SimParam) : (SystemState.new param).Inv := by
  refine ⟨rfl, by simp [SystemState.new], rfl, by simp [SystemState.new]⟩

theorem inv_step {s : SystemState} (h : s.Inv) (op : Op) : (s.step op).Inv := by
  obtain ⟨hb, hlen, hcap, hmem⟩ := h
  cases op with
  | addToServer =>
    show (s.add_packet_to_server.1).Inv
    by_cases hbusy : s.server_busy
    · rw [add_packet_to_server_busy s hbusy]
      exact ⟨hb, hlen, hcap, hmem⟩
    · rw [add_packet_to_server_idle s (by simpa using hbusy)]
      exact ⟨by simp [Packet.new, Packet.start_service, liveInService],
        hlen, hcap, hmem⟩
  | addToQueue =>
    show (s.add_packet_to_queue.1).Inv
    by_cases hroom : s.buffer.items.length < s.buffer.capacity
    · rw [add_packet_to_queue_room s hroom]
      refine ⟨hb, by simpa using hroom, hcap, ?_⟩
      intro p hp
      rcases List.mem_append.mp hp with hp | hp
      · exact hmem p hp
      · rw [List.mem_singleton.mp hp]; rfl
    · rw [add_packet_to_queue_full s hroom]
      exact ⟨hb, hlen, hcap, hmem⟩
  | startService =>
    show (s.start_service.1).Inv
    cases hitems : s.buffer.items with
    | nil =>
      rw [start_service_nil s hitems]
      exact ⟨hb, hlen, hcap, hmem⟩
    | cons p rest =>
      have hp : p.completed = false := hmem p (by simp [hitems])
      rw [start_service_cons s p rest hitems]
      refine ⟨by simp [Packet.start_service, liveInService, hp], ?_, hcap, ?_⟩
      · have : rest.length + 1 ≤ s.buffer.capacity := by
          simpa [hitems] using hlen
        exact le_trans (Nat.le_succ _) this
      · intro q hq
        exact hmem q (by simp [hitems]; right; simpa using hq)
  | completeService =>
    show s.complete_service.Inv
    cases hserved : s.served_packet with
    | none =>
      simp only [SystemState.complete_service, hserved]
      exact ⟨by simp [liveInService], hlen, hcap, hmem⟩
    | some p =>
      rw [complete_service_some s p hserved]
      refine ⟨?_, hlen, hcap, hmem⟩
      by_cases hc : p.completed
      · simp [liveInService, hc]
      · simp [liveInService, hc, Packet.complete_service]
  | queueLength => exact ⟨hb, hlen, hcap, hmem⟩

theorem sim_step (s : SystemState) (op : Op) : (s.step op).sim = s.sim := by
  cases op with
  | addToServer =>
    show (s.add_packet_to_server.1).sim = s.sim
    by_cases hbusy : s.server_busy
    · rw [add_packet_to_server_busy s hbusy]
    · rw [add_packet_to_server_idle s (by simpa using hbusy)]
  | addToQueue =>
    show (s.add_packet_to_queue.1).sim = s.sim
    by_cases hroom : s.buffer.items.length < s.buffer.capacity
    · rw [add_packet_to_queue_room s hroom]
    · rw [add_packet_to_queue_full s hroom]
  | startService =>
    show (s.start_service.1).sim = s.sim
    cases hitems : s.buffer.items with
    | nil => rw [start_service_nil s hitems]
    | cons p rest => rw [start_service_cons s p rest hitems]
  | completeService =>
    show s.complete_service.sim = s.sim
    cases hserved : s.served_packet with
    | none => simp [SystemState.complete_service, hserved]
    | some p => rw [complete_service_some s p hserved]
  | queueLength => rfl

theorem sim_run (s : SystemState) (ops : List Op) :
    (s.run ops).sim = s.sim := by
  induction ops generalizing s with
  | nil => rfl
  | cons op ops ih => exact (ih (s.step op)).trans (sim_step s op)

theorem inv_run {s : SystemState} (h : s.Inv) (ops : List Op) :
    (s.run ops).Inv := by
  induction ops generalizing s with
  | nil => exact h
  | cons op ops ih => exact ih (inv_step h op)

/-- C1: for every sequence of driver calls from a freshly constructed
`SystemState`, `server_busy` is true iff the served unit is a live,
in-service unit, and the queue length never exceeds the configured capacity
`K` (the simulation parameter `S`). -/
theorem system_state_invariant (param : SimParam) (ops : List Op) :
    (((SystemState.new param).run ops).server_busy = true ↔
      liveInService ((SystemState.new param).run ops).served_packet = true) ∧
    ((SystemState.new param).run ops).get_queue_length ≤ param.S := by
  obtain ⟨hb, hlen, hcap, -⟩ := inv_run (inv_new param) ops
  have hsim : ((SystemState.new param).run ops).sim = (SystemState.new param).sim :=
    sim_run _ ops
  refine ⟨by rw [hb], ?_⟩
  rw [SystemState.get_queue_length, FiniteQueue.get_queue_length]
  calc ((SystemState.new param).run ops).buffer.items.length
      ≤ ((SystemState.new param).run ops).buffer.capacity := hlen
    _ = ((SystemState.new param).run ops).sim.S := hcap
    _ = param.S := by rw [hsim]; rfl

/-- C6: `start_service` dequeues the head unit when the queue is non-empty,
makes it the served unit, marks it in service, sets busy and returns true; on
an empty queue it returns false with the state unchanged; and the edge case
in which the queue reports non-empty but the dequeue yields no unit cannot
arise (the queue's `remove` yields a unit whenever the occupancy is
positive), so no transition ever happens through that branch. -/
theorem start_service_transition (s : SystemState) :
    (∀ p rest, s.buffer.items = p :: rest →
      s.start_service =
        ({ s with buffer := { s.buffer with items := rest },
                  served_packet := some p.start_service,
                  server_busy := true }, true)) ∧
    (s.buffer.items = [] → s.start_service = (s, false)) ∧
    (0 < s.buffer.get_queue_length → (s.buffer.remove).2.isSome = true) := by
  refine ⟨fun p rest h => start_service_cons s p rest h,
    fun h => start_service_nil s h, fun h => ?_⟩
  cases hitems : s.buffer.items with
  | nil => simp [FiniteQueue.get_queue_length, hitems] at h
  | cons p rest => simp [FiniteQueue.remove, hitems]

/-- Witness for C6: a state with one buffered packet takes the service
transition and reports true; a fresh state (empty buffer) reports false and
is unchanged. -/
theorem start_service_transition_witness :
    ({ sim := { S := 1, IAT := 0 }, server_busy := false,
       buffer := { capacity := 1, items := [Packet.new (some 0)] },
       served_packet := some (Packet.new none),
       last_arrival := 0 : SystemState }.start_service =
      ({ sim := { S := 1, IAT := 0 }, server_busy := true,
         buffer := { capacity := 1, items := [] },
         served_packet := some (Packet.new (some 0)).start_service,
         last_arrival := 0 : SystemState }, true)) ∧
    ((SystemState.new { S := 1, IAT := 0 }).start_service =
      (SystemState.new { S := 1, IAT := 0 }, false)) := by
  constructor
  · exact (start_service_transition _).1 (Packet.new (some 0)) [] rfl
  · exact (start_service_transition _).2.1 rfl

/-- C7: `add_packet_to_server` on an idle server installs a newly constructed
unit, marked in service, sets busy and returns true; on a busy server it
returns false with no state change; and a second consecutive call with no
intervening `complete_service` or `start_service` always returns false. -/
theorem add_packet_to_server_contract (s : SystemState) :
    (s.server_busy = false →
      s.add_packet_to_server =
        ({ s with served_packet := some (Packet.new (some s.sim.IAT)).start_service,
                  server_busy := true }, true)) ∧
    (s.server_busy = true → s.add_packet_to_server = (s, false)) ∧
    (s.add_packet_to_server.1.add_packet_to_server.2 = false) := by
  refine ⟨fun h => add_packet_to_server_idle s h,
    fun h => add_packet_to_server_busy s h, ?_⟩
  by_cases hbusy : s.server_busy
  · rw [add_packet_to_server_busy s hbusy]
    rw [add_packet_to_server_busy s hbusy]
  · rw [add_packet_to_server_idle s (by simpa using hbusy)]
    rw [add_packet_to_server_busy _ rfl]

/-- Witness for C7: from a fresh (idle) state the first call succeeds and the
immediately following call returns false. -/
theorem add_packet_to_server_contract_witness :
    ((SystemState.new { S := 2, IAT := 7 }).add_packet_to_server.2 = true) ∧
    ((SystemState.new
        { S := 2, IAT := 7 }).add_packet_to_server.1.add_packet_to_server.2 =
      false) := by
  constructor
  · rw [(add_packet_to_server_contract (SystemState.new { S := 2, IAT := 7 })).1 rfl]
  · exact (add_packet_to_server_contract (SystemState.new { S := 2, IAT := 7 })).2.2

/-! ## The counter hierarchy (`counter.py`) -/

/-- The outcome of a Python numeric computation: a proper value, numpy's
silently propagated NaN, or a raised exception. -/
inductive PyVal where
  | val : ℚ → PyVal
  | nan : PyVal
  | exn : String → PyVal
deriving DecidableEq

/-- The arithmetic mean `sum/length` as a rational (0 on the empty list,
which only numpy's NaN guard ever sees). -/
def mean_q (l : List ℚ) : ℚ :=
  l.sum / l.length

/-- The Bessel-corrected sample variance, divisor `n - 1`, as computed by
`numpy.var(values, ddof=1)` on a history of at least two values. -/
def var_q (l : List ℚ) : ℚ :=
  ((l.map fun x => (x - mean_q l) ^ 2).sum) / ((l.length : ℚ) - 1)

/-- `numpy.mean`: NaN (with a runtime warning only) on an empty array,
otherwise the arithmetic mean. -/
def numpy_mean (l : List ℚ) : PyVal :=
  if l.length = 0 then PyVal.nan else PyVal.val (mean_q l)

/-- `numpy.var(·, ddof=1)`: NaN on an empty or singleton array (the divisor
`n - 1` degenerates), otherwise the sample variance. -/
def numpy_var_ddof1 (l : List ℚ) : PyVal :=
  if l.length ≤ 1 then PyVal.nan else PyVal.val (var_q l)

/-- Modelled from the spec: `scipy.stats.t.ppf(q, df, loc, scale)` equals
`loc + scale * tq q df`, where `tq` is the standard Student-t quantile
function.  The quantile function itself lives in scipy, outside the sources,
so it is a parameter. -/
def t_ppf (tq : ℚ → ℕ → ℚ) (q : ℚ) (df : ℕ) (loc scale : ℚ) : ℚ :=
  loc + scale * tq q df

/-- Modelled from the spec: a stand-in for the standard Student-t quantile
with the sign behaviour of the real one (positive strictly above probability
one half, negative below); only this sign enters the claims. -/
def tq_model (q : ℚ) (_df : ℕ) : ℚ :=
  if 1 / 2 < q then 1 else if q < 1 / 2 then -1 else 0

/-- Modelled from the spec: a sign-faithful stand-in for `math.sqrt` on the
rationals (zero at zero, positive on positives, monotone); only this sign
enters the claims. -/
def sqrt_model (q : ℚ) : ℚ := q

namespace TimeIndependentCounter

/-- `TimeIndependentCounter.count` (counter.py lines 83-89): append the value
to the internal array. -/
def count (values : List ℚ) (x : ℚ) : List ℚ :=
  values ++ [x]

/-- `Counter.reset` (lines 32-36): delete all values stored in the internal
array. -/
def reset (_values : List ℚ) : List ℚ :=
  []

/-- `get_mean` (lines 91-96): `numpy.mean(self.values)`. -/
def get_mean (values : List ℚ) : PyVal :=
  numpy_mean values

/-- `get_var` (lines 98-104): `numpy.var(self.values, ddof=1)`. -/
def get_var (values : List ℚ) : PyVal :=
  numpy_var_ddof1 values

/-- `get_stddev` (lines 106-111): `numpy.std(self.values, ddof=1)`, the
square root of the sample variance; `sqrt_f` abstracts the real square
root. -/
def get_stddev (sqrt_f : ℚ → ℚ) (values : List ℚ) : PyVal :=
  match numpy_var_ddof1 values with
  | PyVal.val v => PyVal.val (sqrt_f v)
  | r => r

/-- `report_confidence_interval` (lines 113-122):
`t.ppf(1 - alpha/2, n - 1, mean, sqrt(var/n)) - mean`.  On the claims'
domain (`n ≥ 2`) `self.get_mean()`/`self.get_var()` return proper values, so
the rational formulas stand in for them. -/
def report_confidence_interval (tq : ℚ → ℕ → ℚ) (sqrt_f : ℚ → ℚ)
    (values : List ℚ) (alpha : ℚ) : ℚ :=
  t_ppf tq (1 - alpha / 2) (values.length - 1) (mean_q values)
      (sqrt_f (var_q values / values.length)) -
    mean_q values

/-- `is_in_confidence_interval` (lines 124-135): true iff the sample lies
strictly between `mean - h` and `mean + h` with `h` from
`report_confidence_interval`. -/
def is_in_confidence_interval (tq : ℚ → ℕ → ℚ) (sqrt_f : ℚ → ℚ)
    (values : List ℚ) (x alpha : ℚ) : Bool :=
  if x < mean_q values + report_confidence_interval tq sqrt_f values alpha ∧
      x > mean_q values - report_confidence_interval tq sqrt_f values alpha then
    true
  else false

end TimeIndependentCounter

/-- `TimeDependentCounter` (lines 138-199): values are (duration, value)
pairs; the timestamps delimit the observed window.  The simulation clock
`sim.sim_state.now` is external, so `count` and `reset` take `now` as an
argument. -/
structure TimeDependentCounter where
  values : List (ℚ × ℚ)
  first_timestamp : ℚ
  last_timestamp : ℚ
deriving DecidableEq

/-- `TimeDependentCounter.__init__`: empty history, both timestamps zero. -/
def TimeDependentCounter.new : TimeDependentCounter :=
  { values := [], first_timestamp := 0, last_timestamp := 0 }

/-- `count` (lines 157-164): append `(now - last_timestamp, value)` and
advance `last_timestamp` to `now`. -/
def TimeDependentCounter.count (c : TimeDependentCounter) (now value : ℚ) :
    TimeDependentCounter :=
  { c with values := c.values ++ [(now - c.last_timestamp, value)],
           last_timestamp := now }

/-- `get_mean` (lines 166-174): `Σ duration·value` over the whole observed
window; Python raises ZeroDivisionError on a zero-width window. -/
def TimeDependentCounter.get_mean (c : TimeDependentCounter) : PyVal :=
  if c.last_timestamp - c.first_timestamp = 0 then PyVal.exn "ZeroDivisionError"
  else
    PyVal.val ((c.values.map fun dv => dv.1 * dv.2).sum /
      (c.last_timestamp - c.first_timestamp))

/-- `reset` (lines 193-199): snap both timestamps to the current clock and
clear the history. -/
def TimeDependentCounter.reset (_c : TimeDependentCounter) (now : ℚ) :
    TimeDependentCounter :=
  { values := [], first_timestamp := now, last_timestamp := now }

/-- `TimeIndependentCrosscorrelationCounter` (lines 202-257): the inherited
`values` array holds the products `x·y`; the embedded counters `X`, `Y` hold
the two coordinates. -/
structure TimeIndependentCrosscorrelationCounter where
  X : List ℚ
  Y : List ℚ
  values : List ℚ
deriving DecidableEq

namespace TimeIndependentCrosscorrelationCounter

/-- `__init__` (lines 208-216). -/
def new : TimeIndependentCrosscorrelationCounter :=
  { X := [], Y := [], values := [] }

/-- `count` (lines 228-235): record `x` into `X`, `y` into `Y` and the
product into `values`. -/
def count (c : TimeIndependentCrosscorrelationCounter) (x y : ℚ) :
    TimeIndependentCrosscorrelationCounter :=
  { X := c.X ++ [x], Y := c.Y ++ [y], values := c.values ++ [x * y] }

/-- `reset` (lines 218-226). -/
def reset (_c : TimeIndependentCrosscorrelationCounter) :
    TimeIndependentCrosscorrelationCounter :=
  { X := [], Y := [], values := [] }

/-- `get_cov` (lines 237-243):
`1/n * (Σ values - n * mean(X) * mean(Y))`; Python raises ZeroDivisionError
when no value has been counted (`1/float(0)`). -/
def get_cov (c : TimeIndependentCrosscorrelationCounter) : PyVal :=
  if c.values.length = 0 then PyVal.exn "ZeroDivisionError"
  else
    match numpy_mean c.X, numpy_mean c.Y with
    | PyVal.val mx, PyVal.val my =>
      PyVal.val (1 / (c.values.length : ℚ) *
        (c.values.sum - (c.values.length : ℚ) * mx * my))
    | _, _ => PyVal.nan

/-- `get_cor` (lines 245-251): covariance over the product of the two sample
standard deviations; a zero denominator raises ZeroDivisionError, a NaN
variance propagates as NaN. -/
def get_cor (sqrt_f : ℚ → ℚ) (c : TimeIndependentCrosscorrelationCounter) :
    PyVal :=
  match c.get_cov, numpy_var_ddof1 c.X, numpy_var_ddof1 c.Y with
  | PyVal.val cv, PyVal.val vx, PyVal.val vy =>
    if sqrt_f vx * sqrt_f vy = 0 then PyVal.exn "ZeroDivisionError"
    else PyVal.val (cv / (sqrt_f vx * sqrt_f vy))
  | PyVal.exn e, _, _ => PyVal.exn e
  | _, _, _ => PyVal.nan

end TimeIndependentCrosscorrelationCounter

/-- `numpy.roll(l, k)`: cyclically shift the array right by `k` positions. -/
def numpy_roll (l : List ℚ) (k : ℕ) : List ℚ :=
  if l.length = 0 then l else l.rotate (l.length - k % l.length)

/-- `TimeIndependentAutocorrelationCounter` (lines 260-328): `X` is the
embedded counter holding the series, `values` the inherited array that
`get_auto_cov` overwrites with the lag-window products, `max_lag` the cycle
length minus one. -/
structure TimeIndependentAutocorrelationCounter where
  X : List ℚ
  values : List ℚ
  max_lag : ℕ
deriving DecidableEq

namespace TimeIndependentAutocorrelationCounter

/-- `__init__` (lines 266-275). -/
def new (max_lag : ℕ) : TimeIndependentAutocorrelationCounter :=
  { X := [], values := [], max_lag := max_lag }

/-- `count` (lines 286-291): append to the embedded `X` only; the counter's
own `values` is untouched. -/
def count (c : TimeIndependentAutocorrelationCounter) (x : ℚ) :
    TimeIndependentAutocorrelationCounter :=
  { c with X := c.X ++ [x] }

/-- `reset` (lines 277-284). -/
def reset (c : TimeIndependentAutocorrelationCounter) :
    TimeIndependentAutocorrelationCounter :=
  { c with X := [], values := [] }

/-- `get_auto_cov` (lines 293-305): roll `X` by `lag mod (max_lag+1)`,
overwrite `self.values` with the products of the rolled series against the
original from index `lag` on, and divide by their number.  Python raises
ZeroDivisionError when `X` is empty (mean of the empty roll, before `values`
is touched) and when the pairing window is empty (after `values` was
overwritten with the empty list).  The state component of the result is the
counter after the call. -/
def get_auto_cov (c : TimeIndependentAutocorrelationCounter) (lag : ℕ) :
    TimeIndependentAutocorrelationCounter × PyVal :=
  let X_lag := numpy_roll c.X (lag % (c.max_lag + 1))
  if c.X.length = 0 then (c, PyVal.exn "ZeroDivisionError")
  else
    let products := ((X_lag.drop lag).zip (c.X.drop lag)).map fun p => p.1 * p.2
    let c' := { c with values := products }
    if products.length = 0 then (c', PyVal.exn "ZeroDivisionError")
    else
      (c', PyVal.val (1 / (products.length : ℚ) *
        (products.sum - (products.length : ℚ) * mean_q c.X * mean_q c.X)))

/-- `get_auto_cor` (lines 307-313): the auto covariance over
`sqrt(var(X)) * sqrt(var(X))`; an exception from `get_auto_cov` propagates,
a NaN variance yields NaN, a zero denominator raises. -/
def get_auto_cor (sqrt_f : ℚ → ℚ)
    (c : TimeIndependentAutocorrelationCounter) (lag : ℕ) :
    TimeIndependentAutocorrelationCounter × PyVal :=
  let r := c.get_auto_cov lag
  match r.2 with
  | PyVal.val v =>
    match numpy_var_ddof1 c.X with
    | PyVal.val w =>
      if sqrt_f w * sqrt_f w = 0 then (r.1, PyVal.exn "ZeroDivisionError")
      else (r.1, PyVal.val (v / (sqrt_f w * sqrt_f w)))
    | _ => (r.1, PyVal.nan)
  | e => (r.1, e)

/-- `set_max_lag` (lines 315-320). -/
def set_max_lag (c : TimeIndependentAutocorrelationCounter) (max_lag : ℕ) :
    TimeIndependentAutocorrelationCounter :=
  { c with max_lag := max_lag }

end TimeIndependentAutocorrelationCounter

/-! ## Claims about the counters -/

/-- C2: on a non-empty history `get_mean` is the arithmetic mean; with at
least two values `get_var` is the Bessel-corrected sample variance (divisor
`n - 1`) and `get_stddev` its square root; on `[2,4,6]` the mean is 4, the
variance is 4 (and not the population value `8/3`), the standard deviation
2. -/
theorem tic_estimators (sqrt_f : ℚ → ℚ) (l : List ℚ)
    (h1 : l ≠ []) (hs : sqrt_f 4 = 2) :
    TimeIndependentCounter.get_mean l = PyVal.val (l.sum / l.length) ∧
    (2 ≤ l.length →
      TimeIndependentCounter.get_var l =
        PyVal.val (((l.map fun x => (x - l.sum / l.length) ^ 2).sum) /
          ((l.length : ℚ) - 1)) ∧
      TimeIndependentCounter.get_stddev sqrt_f l =
        PyVal.val (sqrt_f (var_q l))) ∧
    TimeIndependentCounter.get_mean [2, 4, 6] = PyVal.val 4 ∧
    TimeIndependentCounter.get_var [2, 4, 6] = PyVal.val 4 ∧
    TimeIndependentCounter.get_var [2, 4, 6] ≠ PyVal.val (8 / 3) ∧
    TimeIndependentCounter.get_stddev sqrt_f [2, 4, 6] = PyVal.val 2 := by
  have hlen : l.length ≠ 0 := fun h => h1 (List.length_eq_zero.mp h)
  refine ⟨?_, fun hn => ⟨?_, ?_⟩, ?_, ?_, ?_, ?_⟩
  · simp [TimeIndependentCounter.get_mean, numpy_mean, mean_q, hlen]
  · have : ¬ l.length ≤ 1 := by omega
    simp [TimeIndependentCounter.get_var, numpy_var_ddof1, var_q, mean_q, this]
  · have : ¬ l.length ≤ 1 := by omega
    simp [TimeIndependentCounter.get_stddev, numpy_var_ddof1, this]
  · norm_num [TimeIndependentCounter.get_mean, numpy_mean, mean_q]
  · norm_num [TimeIndependentCounter.get_var, numpy_var_ddof1, var_q, mean_q]
  · norm_num [TimeIndependentCounter.get_var, numpy_var_ddof1, var_q, mean_q]
  · have h4 : var_q [2, 4, 6] = 4 := by norm_num [var_q, mean_q]
    simp [TimeIndependentCounter.get_stddev, numpy_var_ddof1, h4, hs]

/-- Witness for C2: the theorem applied to `[2,4,6]` with a square-root
function sending 4 to 2. -/
theorem tic_estimators_witness :
    TimeIndependentCounter.get_mean [2, 4, 6] = PyVal.val 4 ∧
    TimeIndependentCounter.get_var [2, 4, 6] = PyVal.val 4 ∧
    TimeIndependentCounter.get_stddev (fun _ => 2) [2, 4, 6] = PyVal.val 2 := by
  have h := tic_estimators (fun _ => 2) [2, 4, 6] (List.cons_ne_nil 2 [4, 6]) rfl
  exact ⟨h.2.2.1, h.2.2.2.1, h.2.2.2.2.2⟩

/-- C3: with a non-empty history and a non-degenerate window, the
time-dependent mean is `Σ duration · value` over the whole window
`last_timestamp - first_timestamp`; `count` records the pair
`(now - last_timestamp, value)` and advances `last_timestamp`; with the
clock advancing 0→1→3 and values 5 then 9 the mean is `23/3`. -/
theorem tdc_time_weighted_mean (c : TimeDependentCounter)
    (_h1 : c.values ≠ []) (h2 : c.last_timestamp ≠ c.first_timestamp) :
    c.get_mean =
      PyVal.val ((c.values.map fun dv => dv.1 * dv.2).sum /
        (c.last_timestamp - c.first_timestamp)) ∧
    (∀ now v : ℚ, c.count now v =
      { c with values := c.values ++ [(now - c.last_timestamp, v)],
               last_timestamp := now }) ∧
    ((TimeDependentCounter.new.count 1 5).count 3 9).get_mean =
      PyVal.val (23 / 3) := by
  refine ⟨?_, fun now v => rfl, ?_⟩
  · have : ¬ (c.last_timestamp - c.first_timestamp = 0) := sub_ne_zero.mpr h2
    simp [TimeDependentCounter.get_mean, this]
  · norm_num [TimeDependentCounter.get_mean, TimeDependentCounter.count,
      TimeDependentCounter.new]

/-- Witness for C3: the theorem applied to the counter that observed 5 at
time 1 and 9 at time 3, starting from a fresh counter at time 0. -/
theorem tdc_time_weighted_mean_witness :
    ((TimeDependentCounter.new.count 1 5).count 3 9).get_mean =
      PyVal.val (23 / 3) :=
  (tdc_time_weighted_mean ((TimeDependentCounter.new.count 1 5).count 3 9)
      (by simp [TimeDependentCounter.count])
      (by simp [TimeDependentCounter.count, TimeDependentCounter.new])).2.2

/-- The cross-correlation counter obtained by counting the pairs of `ps` in
order, starting fresh. -/
def fromPairs (ps : List (ℚ × ℚ)) : TimeIndependentCrosscorrelationCounter :=
  ps.foldl (fun c xy => c.count xy.1 xy.2) TimeIndependentCrosscorrelationCounter.new

theorem foldl_count_fields (ps : List (ℚ × ℚ))
    (c : TimeIndependentCrosscorrelationCounter) :
    ps.foldl (fun c xy => c.count xy.1 xy.2) c =
      { X := c.X ++ ps.map Prod.fst, Y := c.Y ++ ps.map Prod.snd,
        values := c.values ++ ps.map fun xy => xy.1 * xy.2 } := by
  induction ps generalizing c with
  | nil => simp
  | cons p ps ih =>
    rw [List.foldl_cons, ih]
    simp [TimeIndependentCrosscorrelationCounter.count]

theorem fromPairs_fields (ps : List (ℚ × ℚ)) :
    fromPairs ps =
      { X := ps.map Prod.fst, Y := ps.map Prod.snd,
        values := ps.map fun xy => xy.1 * xy.2 } := by
  have h := foldl_count_fields ps TimeIndependentCrosscorrelationCounter.new
  simpa [fromPairs, TimeIndependentCrosscorrelationCounter.new] using h

/-- C4: after `n ≥ 1` counted pairs, `get_cov` is the biased divide-by-`n`
covariance `(1/n)·(Σ x·y - n·mean(X)·mean(Y))`; after counting (1,2) and
(3,4) it is 1, and not the Bessel-corrected value 2. -/
theorem ticcc_biased_covariance (ps : List (ℚ × ℚ)) (h : ps ≠ []) :
    (fromPairs ps).get_cov =
      PyVal.val (1 / (ps.length : ℚ) *
        ((ps.map fun xy => xy.1 * xy.2).sum -
          (ps.length : ℚ) * mean_q (ps.map Prod.fst) *
            mean_q (ps.map Prod.snd))) ∧
    (fromPairs [(1, 2), (3, 4)]).get_cov = PyVal.val 1 ∧
    (fromPairs [(1, 2), (3, 4)]).get_cov ≠ PyVal.val 2 := by
  have hlen : ps.length ≠ 0 := fun hl => h (List.length_eq_zero.mp hl)
  refine ⟨?_, ?_, ?_⟩
  · rw [fromPairs_fields]
    simp [TimeIndependentCrosscorrelationCounter.get_cov, numpy_mean, hlen]
  · rw [fromPairs_fields]
    norm_num [TimeIndependentCrosscorrelationCounter.get_cov, numpy_mean, mean_q]
  · rw [fromPairs_fields]
    norm_num [TimeIndependentCrosscorrelationCounter.get_cov, numpy_mean, mean_q]

/-- Witness for C4: the theorem applied to the history [(1,2), (3,4)]. -/
theorem ticcc_biased_covariance_witness :
    (fromPairs [(1, 2), (3, 4)]).get_cov = PyVal.val 1 :=
  (ticcc_biased_covariance [(1, 2), (3, 4)]
    (List.cons_ne_nil (1, 2) [(3, 4)])).2.1

/-- C5 (what the code actually does): an empty-history `get_mean`/`get_var`
on the time-independent counter — freshly constructed or just reset —
silently yields numpy's NaN instead of failing with a defined
insufficient-data condition; the time-dependent counter's `get_mean` on a
fresh or just-reset counter raises a ZeroDivisionError from its zero-width
window. -/
theorem empty_history_query_yields_nan :
    TimeIndependentCounter.get_mean [] = PyVal.nan ∧
    TimeIndependentCounter.get_var [] = PyVal.nan ∧
    (∀ l : List ℚ,
      TimeIndependentCounter.get_mean (TimeIndependentCounter.reset l) =
        PyVal.nan ∧
      TimeIndependentCounter.get_var (TimeIndependentCounter.reset l) =
        PyVal.nan) ∧
    TimeDependentCounter.new.get_mean = PyVal.exn "ZeroDivisionError" ∧
    (∀ (c : TimeDependentCounter) (now : ℚ),
      (c.reset now).get_mean = PyVal.exn "ZeroDivisionError") := by
  refine ⟨rfl, rfl, fun l => ⟨rfl, rfl⟩, ?_, fun c now => ?_⟩
  · simp [TimeDependentCounter.get_mean, TimeDependentCounter.new]
  · simp [TimeDependentCounter.get_mean, TimeDependentCounter.reset]

theorem numpy_roll_length (l : List ℚ) (k : ℕ) :
    (numpy_roll l k).length = l.length := by
  unfold numpy_roll
  split
  · rfl
  · exact List.length_rotate l _

theorem auto_cov_values_eq (c : TimeIndependentAutocorrelationCounter)
    (lag : ℕ) (h : ¬ c.X.length = 0) :
    ((c.get_auto_cov lag).1).values =
      (((numpy_roll c.X (lag % (c.max_lag + 1))).drop lag).zip
        (c.X.drop lag)).map fun p => p.1 * p.2 := by
  simp only [TimeIndependentAutocorrelationCounter.get_auto_cov]
  rw [if_neg h]
  split <;> rfl

/-- C8 counterexample: the autocorrelation counter that counted 1, 2, 3 has
an empty `values` array (its `count` feeds only the embedded `X`), and a
single `get_auto_cov` query overwrites `values` with the lag-window
products, so `values` neither reflects the counted samples nor survives a
statistic query unmutated. -/
theorem auto_cov_mutates_values :
    (((((TimeIndependentAutocorrelationCounter.new 10).count 1).count
        2).count 3).get_auto_cov 0).1.values ≠
      ((((TimeIndependentAutocorrelationCounter.new 10).count 1).count
        2).count 3).values ∧
    ((((TimeIndependentAutocorrelationCounter.new 10).count 1).count
      2).count 3).values = [] := by
  have hc : (((TimeIndependentAutocorrelationCounter.new 10).count 1).count
        2).count 3 =
      ({ X := [1, 2, 3], values := [], max_lag := 10 } :
        TimeIndependentAutocorrelationCounter) := by
    simp [TimeIndependentAutocorrelationCounter.new,
      TimeIndependentAutocorrelationCounter.count]
  rw [hc]
  refine ⟨?_, rfl⟩
  have hroll : numpy_roll ([1, 2, 3] : List ℚ) (0 % (10 + 1)) = [1, 2, 3] := by
    have h3 : ([1, 2, 3] : List ℚ).rotate 3 = [1, 2, 3] :=
      List.rotate_length _
    simpa [numpy_roll] using h3
  rw [auto_cov_values_eq _ 0 (by simp)]
  simp only [hroll]
  simp

/-- C8 (amended): `count` appends and `reset` clears for every variant's own
history — but for the autocorrelation counter `count` appends only to the
embedded series `X`, leaving `values` unchanged, and `get_auto_cov`
overwrites `values` with the lag-window products whenever `X` is
non-empty. -/
theorem counter_values_lifecycle :
    (∀ (l : List ℚ) (x : ℚ), TimeIndependentCounter.count l x = l ++ [x]) ∧
    (∀ l : List ℚ, TimeIndependentCounter.reset l = []) ∧
    (∀ (c : TimeDependentCounter) (now v : ℚ),
      (c.count now v).values = c.values ++ [(now - c.last_timestamp, v)]) ∧
    (∀ (c : TimeDependentCounter) (now : ℚ), (c.reset now).values = []) ∧
    (∀ (c : TimeIndependentCrosscorrelationCounter) (x y : ℚ),
      (c.count x y).values = c.values ++ [x * y] ∧
      (c.count x y).X = c.X ++ [x] ∧ (c.count x y).Y = c.Y ++ [y]) ∧
    (∀ c : TimeIndependentCrosscorrelationCounter, c.reset.values = []) ∧
    (∀ (c : TimeIndependentAutocorrelationCounter) (x : ℚ),
      (c.count x).X = c.X ++ [x] ∧ (c.count x).values = c.values) ∧
    (∀ c : TimeIndependentAutocorrelationCounter,
      c.reset.values = [] ∧ c.reset.X = []) ∧
    (∀ (c : TimeIndependentAutocorrelationCounter) (lag : ℕ),
      ¬ c.X.length = 0 →
      ((c.get_auto_cov lag).1).values =
        (((numpy_roll c.X (lag % (c.max_lag + 1))).drop lag).zip
          (c.X.drop lag)).map fun p => p.1 * p.2) :=
  ⟨fun _ _ => rfl, fun _ => rfl, fun _ _ _ => rfl, fun _ _ => rfl,
    fun _ _ _ => ⟨rfl, rfl, rfl⟩, fun _ => rfl, fun _ _ => ⟨rfl, rfl⟩,
    fun _ => ⟨rfl, rfl⟩, fun c lag h => auto_cov_values_eq c lag h⟩

/-- Witness for C8's amended theorem: the query on the counter holding
[1, 2, 3] leaves the product list in `values`. -/
theorem counter_values_lifecycle_witness :
    ((({ X := [1, 2, 3], values := [], max_lag := 10 } :
        TimeIndependentAutocorrelationCounter).get_auto_cov 0).1).values =
      (((numpy_roll ([1, 2, 3] : List ℚ) (0 % (10 + 1))).drop 0).zip
        (([1, 2, 3] : List ℚ).drop 0)).map fun p => p.1 * p.2 :=
  counter_values_lifecycle.2.2.2.2.2.2.2.2
    { X := [1, 2, 3], values := [], max_lag := 10 } 0 (by simp)

/-- C9 (what the code actually does): a lag at or beyond the recorded
history makes `get_auto_cov` divide by the empty pairing window — a raised
ZeroDivisionError, not a defined out-of-range failure — and `get_auto_cor`
propagates the same exception. -/
theorem auto_cov_out_of_range_zero_division
    (c : TimeIndependentAutocorrelationCounter) (lag : ℕ) (sqrt_f : ℚ → ℚ)
    (h : c.X.length ≤ lag) :
    (c.get_auto_cov lag).2 = PyVal.exn "ZeroDivisionError" ∧
    (TimeIndependentAutocorrelationCounter.get_auto_cor sqrt_f c lag).2 =
      PyVal.exn "ZeroDivisionError" := by
  have hcov : (c.get_auto_cov lag).2 = PyVal.exn "ZeroDivisionError" := by
    by_cases hX : c.X.length = 0
    · simp [TimeIndependentAutocorrelationCounter.get_auto_cov, hX]
    · have hzip : ((numpy_roll c.X (lag % (c.max_lag + 1))).drop lag).zip
          (c.X.drop lag) = [] := by
        rw [← List.length_eq_zero, List.length_zip, List.length_drop,
          numpy_roll_length]
        omega
      simp [TimeIndependentAutocorrelationCounter.get_auto_cov, hX, hzip]
  exact ⟨hcov, by
    simp [TimeIndependentAutocorrelationCounter.get_auto_cor, hcov]⟩

/-- Witness for C9: the counter holding the two samples [1, 2], queried at
lag 2. -/
theorem auto_cov_out_of_range_witness :
    ((({ X := [1, 2], values := [], max_lag := 10 } :
        TimeIndependentAutocorrelationCounter).get_auto_cov 2).2 =
      PyVal.exn "ZeroDivisionError") ∧
    ((TimeIndependentAutocorrelationCounter.get_auto_cor sqrt_model
        { X := [1, 2], values := [], max_lag := 10 } 2).2 =
      PyVal.exn "ZeroDivisionError") :=
  auto_cov_out_of_range_zero_division
    { X := [1, 2], values := [], max_lag := 10 } 2 sqrt_model (by simp)

theorem tq_model_pos (q : ℚ) (df : ℕ) (h : 1 / 2 < q) : 0 < tq_model q df := by
  unfold tq_model
  rw [if_pos h]
  norm_num

theorem sqrt_model_pos (q : ℚ) (h : 0 < q) : 0 < sqrt_model q := h

theorem half_pos_q : (0 : ℚ) < 1 / 2 := by norm_num

theorem half_lt_one_q : (1 : ℚ) / 2 < 1 := by norm_num

theorem var_q_one_two_pos : 0 < var_q [1, 2] := by
  norm_num [var_q, mean_q]

/-- C10 counterexample: on the degenerate sample [5, 5] — two values, the
queried sample equal to the exact mean, confidence parameter 1/2 ∈ (0,1) —
`is_in_confidence_interval` returns false: the sample variance is zero, so
the half-width is zero and the strict comparisons both fail. -/
theorem ci_membership_at_mean_cex :
    mean_q [5, 5] = 5 ∧ 2 ≤ ([5, 5] : List ℚ).length ∧
    (0 : ℚ) < 1 / 2 ∧ (1 : ℚ) / 2 < 1 ∧
    TimeIndependentCounter.is_in_confidence_interval tq_model sqrt_model
      [5, 5] 5 (1 / 2) = false := by
  refine ⟨by norm_num [mean_q], by norm_num, by norm_num, by norm_num, ?_⟩
  norm_num [TimeIndependentCounter.is_in_confidence_interval,
    TimeIndependentCounter.report_confidence_interval, t_ppf, sqrt_model,
    var_q, mean_q]

/-- C10 (amended): for `n ≥ 2`, alpha in (0,1) and a sample of positive
sample variance, `is_in_confidence_interval` at the exact sample mean
returns true, for any square root and Student-t quantile functions with the
true ones' signs (positive on positives, respectively positive above
probability one half). -/
theorem ci_membership_at_mean_pos_var (tq : ℚ → ℕ → ℚ) (sqrt_f : ℚ → ℚ)
    (l : List ℚ) (alpha : ℚ) (hn : 2 ≤ l.length) (ha0 : 0 < alpha)
    (ha1 : alpha < 1) (hvar : 0 < var_q l)
    (hsq : ∀ q : ℚ, 0 < q → 0 < sqrt_f q)
    (htq : ∀ (q : ℚ) (df : ℕ), 1 / 2 < q → 0 < tq q df) :
    TimeIndependentCounter.is_in_confidence_interval tq sqrt_f l (mean_q l)
      alpha = true := by
  have hlen : (0 : ℚ) < l.length := by
    have h2 : (2 : ℚ) ≤ l.length := by exact_mod_cast hn
    linarith
  have hh : TimeIndependentCounter.report_confidence_interval tq sqrt_f l
      alpha = sqrt_f (var_q l / l.length) * tq (1 - alpha / 2)
        (l.length - 1) := by
    unfold TimeIndependentCounter.report_confidence_interval t_ppf
    ring
  have hpos : 0 < TimeIndependentCounter.report_confidence_interval tq
      sqrt_f l alpha := by
    rw [hh]
    exact mul_pos (hsq _ (div_pos hvar hlen)) (htq _ _ (by linarith))
  unfold TimeIndependentCounter.is_in_confidence_interval
  rw [if_pos ⟨by linarith, by linarith⟩]

/-- Witness for C10's amended theorem: the sample [1, 2] (variance 1/2) at
its mean with alpha = 1/2 and the sign-faithful stand-ins. -/
theorem ci_membership_at_mean_witness :
    TimeIndependentCounter.is_in_confidence_interval tq_model sqrt_model
      [1, 2] (mean_q [1, 2]) (1 / 2) = true :=
  ci_membership_at_mean_pos_var tq_model sqrt_model [1, 2] (1 / 2)
    (by simp) half_pos_q half_lt_one_q var_q_one_two_pos sqrt_model_pos
    tq_model_pos

end DES
